import Mathlib

/-!
Shallow embedding of the Snowflake id generator of `@brmorillo/ids`
(`src/generators/snowflake-generator.ts`) and of the `IdService.getSnowflake`
façade (`src/services/id.service.ts`), together with proofs of the
specification's testable properties.

Conventions of the embedding:
* JavaScript `number` timestamps and ids (held as `BigInt` in the source) are
  modelled by `Int`; `BigInt` shifts and bitwise ops are modelled by the
  two's-complement operations `Int.lor`, `Int.land`, `<<<` and `>>>`.
* The mutable fields `sequence` / `lastTimestamp` of the class become the
  explicit state `SnowflakeState`, threaded through `getId`.
* The ambient clock `Date.now()` becomes a stream `clock : Nat → Int`
  together with a read position; each read consumes one position.
* The busy-wait loop of `waitNextMillis` is given a fuel parameter; running
  out of fuel models non-termination of the spin loop.
-/

namespace JsIds

/-- Options object accepted by the `SnowflakeGenerator` constructor
(`SnowflakeOptions` in `id-generator.interface.ts`); every field is
optional, mirroring `workerId?`, `processId?`, `epoch?`. -/
structure SnowflakeOptions where
  workerId : Option Int := none
  processId : Option Int := none
  epoch : Option Int := none
deriving DecidableEq

/-- Immutable per-instance configuration fixed by the constructor
(the readonly fields `workerId`, `processId`, `epoch`). -/
structure GeneratorIdentity where
  workerId : Int
  processId : Int
  epoch : Int
deriving DecidableEq

/-- Mutable per-instance state (the fields `sequence` and `lastTimestamp`,
initialized to `0` and `-1`). -/
structure SnowflakeState where
  sequence : Nat
  lastTimestamp : Int
deriving DecidableEq

/-- Bit length of the worker-id field (`WORKER_ID_BITS = 5`). -/
def WORKER_ID_BITS : Nat := 5

/-- Bit length of the process-id field (`PROCESS_ID_BITS = 5`). -/
def PROCESS_ID_BITS : Nat := 5

/-- Bit length of the sequence field (`SEQUENCE_BITS = 12`). -/
def SEQUENCE_BITS : Nat := 12

/-- Maximum worker id, `(1 << WORKER_ID_BITS) - 1 = 31`. -/
def MAX_WORKER_ID : Nat := (1 <<< WORKER_ID_BITS) - 1

/-- Maximum process id, `(1 << PROCESS_ID_BITS) - 1 = 31`. -/
def MAX_PROCESS_ID : Nat := (1 <<< PROCESS_ID_BITS) - 1

/-- Maximum sequence value, `(1 << SEQUENCE_BITS) - 1 = 4095`. -/
def MAX_SEQUENCE : Nat := (1 <<< SEQUENCE_BITS) - 1

/-- Shift of the timestamp field,
`WORKER_ID_BITS + PROCESS_ID_BITS + SEQUENCE_BITS = 22`. -/
def TIMESTAMP_SHIFT : Nat := WORKER_ID_BITS + PROCESS_ID_BITS + SEQUENCE_BITS

/-- Shift of the worker-id field, `PROCESS_ID_BITS + SEQUENCE_BITS = 17`. -/
def WORKER_ID_SHIFT : Nat := PROCESS_ID_BITS + SEQUENCE_BITS

/-- Shift of the process-id field, `SEQUENCE_BITS = 12`. -/
def PROCESS_ID_SHIFT : Nat := SEQUENCE_BITS

/-- Default epoch constant of the constructor
(`1733011200000`, used when `options?.epoch` is absent or falsy). -/
def DEFAULT_EPOCH : Int := 1733011200000

/-- State installed by the constructor: `sequence = 0`, `lastTimestamp = -1`. -/
def freshState : SnowflakeState := { sequence := 0, lastTimestamp := -1 }

/-- The `SnowflakeGenerator` constructor.  Mirrors, line by line:
`this.epoch = options?.epoch || 1733011200000` (JavaScript `||`, so a supplied
epoch of `0` is falsy and falls back to the default);
`this.workerId = options?.workerId ?? 1` followed by the range check throwing
`Worker ID must be between 0 and 31`; then the same for `processId`.
Returns the immutable identity together with the fresh mutable state. -/
def mkSnowflakeGenerator (options : Option SnowflakeOptions) :
    Except String (GeneratorIdentity × SnowflakeState) :=
  let epoch : Int :=
    match (options.bind SnowflakeOptions.epoch) with
    | some e => if e = 0 then DEFAULT_EPOCH else e
    | none => DEFAULT_EPOCH
  let workerId : Int := (options.bind SnowflakeOptions.workerId).getD 1
  if workerId < 0 ∨ (MAX_WORKER_ID : Int) < workerId then
    Except.error ("Worker ID must be between 0 and " ++ toString (MAX_WORKER_ID : Nat))
  else
    let processId : Int := (options.bind SnowflakeOptions.processId).getD 1
    if processId < 0 ∨ (MAX_PROCESS_ID : Int) < processId then
      Except.error ("Process ID must be between 0 and " ++ toString (MAX_PROCESS_ID : Nat))
    else
      Except.ok ({ workerId := workerId, processId := processId, epoch := epoch }, freshState)

/-- Packing of the id (`getId` lines 88-95): each component is converted to
`BigInt`, shifted, and the pieces are combined with `|`, left associated. -/
def encodeId (g : GeneratorIdentity) (timestamp : Int) (sequence : Nat) : Int :=
  let timestampBits : Int := (timestamp - g.epoch) <<< ((TIMESTAMP_SHIFT : Nat) : Int)
  let workerIdBits : Int := g.workerId <<< ((WORKER_ID_SHIFT : Nat) : Int)
  let processIdBits : Int := g.processId <<< ((PROCESS_ID_SHIFT : Nat) : Int)
  let sequenceBits : Int := (sequence : Int)
  Int.lor (Int.lor (Int.lor timestampBits workerIdBits) processIdBits) sequenceBits

/-- Result of the decoder (`deconstruct`); the source also returns
`date: new Date(timestamp)`, modelled by the same milliseconds value. -/
structure DeconstructResult where
  timestamp : Int
  workerId : Int
  processId : Int
  sequence : Int
  date : Int
deriving DecidableEq

/-- Base-2 logarithm with explicit fuel (computable by kernel reduction;
agrees with `Nat.log2` whenever the fuel is at least the bit length, and
`1100` units cover every value in the float64 finite range). -/
def log2Fuel : Nat → Nat → Nat
  | 0, _ => 0
  | fuel + 1, m => if m ≤ 1 then 0 else log2Fuel fuel (m / 2) + 1

/-- Rounding of a natural number to the nearest IEEE-754 float64 value
(53-bit significand, ties to even): identity up to `2^53`, above that the
low `bitlength - 53` bits are rounded away.  Model of JavaScript's
`Number(bigint)` on nonnegative integers. -/
def jsNumberNat (m : Nat) : Nat :=
  if m ≤ 9007199254740992 then m
  else
    let k := log2Fuel 1100 m - 52
    let q := m >>> k
    let r := m % (1 <<< k)
    let half := 1 <<< (k - 1)
    if r < half then q <<< k
    else if half < r then (q + 1) <<< k
    else if q % 2 = 0 then q <<< k else (q + 1) <<< k

/-- Model of JavaScript's `Number(bigint)` conversion on integers: the value
of the nearest float64 (ties to even), by sign and magnitude.  Exact for
magnitudes up to `2^53`; faithful to the source for every value in the
finite double range (beyond about `2^1024` the real conversion yields
`Infinity`, which has no integer counterpart and lies far outside every
value produced or consumed by this repository). -/
def jsNumber (n : Int) : Int :=
  if n < 0 then -(jsNumberNat n.natAbs : Int) else (jsNumberNat n.natAbs : Int)

/-- The decoder `deconstruct` (lines 103-130): `BigInt(id)` is the already
parsed integer; the components are recovered with arithmetic right shifts
and two's-complement masks, and each component is converted from `BigInt`
back to a JavaScript number with `Number(...)` — modelled by `jsNumber` —
exactly as in the source. -/
def deconstruct (g : GeneratorIdentity) (id : Int) : DeconstructResult :=
  let snowflakeId : Int := id
  let timestamp : Int := jsNumber ((snowflakeId >>> TIMESTAMP_SHIFT) + g.epoch)
  let workerId : Int :=
    jsNumber (Int.land (snowflakeId >>> WORKER_ID_SHIFT) ((MAX_WORKER_ID : Nat) : Int))
  let processId : Int :=
    jsNumber (Int.land (snowflakeId >>> PROCESS_ID_SHIFT) ((MAX_PROCESS_ID : Nat) : Int))
  let sequence : Int := jsNumber (Int.land snowflakeId ((MAX_SEQUENCE : Nat) : Int))
  { timestamp := timestamp, workerId := workerId, processId := processId,
    sequence := sequence, date := timestamp }

/-- The busy-wait loop `waitNextMillis` (lines 142-148): repeatedly read the
clock until the reading exceeds `lastTimestamp`; return that reading.  Each
read consumes one stream position; `fuel` bounds the number of reads, `none`
modelling a spin that has not yet terminated. -/
def waitNextMillis (clock : Nat → Int) (lastTimestamp : Int) :
    Nat → Nat → Option (Int × Nat)
  | _, 0 => none
  | pos, fuel + 1 =>
    let timestamp := clock pos
    if timestamp ≤ lastTimestamp then
      waitNextMillis clock lastTimestamp (pos + 1) fuel
    else
      some (timestamp, pos + 1)

/-- Outcome of one `getId()` call: a returned id together with the updated
state and clock position; a thrown clock-regression `Error` carrying the
reported magnitude (the state fields are untouched on this path, which the
carried state records); or exhaustion of the busy-wait fuel. -/
inductive GetIdResult where
  | ok (id : Int) (st : SnowflakeState) (pos : Nat)
  | clockBack (magnitude : Int) (st : SnowflakeState) (pos : Nat)
  | outOfFuel
deriving DecidableEq

/-- One call of `SnowflakeGenerator.getId` (lines 62-96), with the ambient
`Date.now()` modelled by `clock` read at `pos`.  Mirrors the source:
regression check and throw; same-millisecond branch incrementing the
sequence under the mask and busy-waiting on wrap; new-millisecond branch
resetting the sequence; `lastTimestamp` update; packing of the id. -/
def getId (g : GeneratorIdentity) (clock : Nat → Int) (fuel : Nat)
    (st : SnowflakeState) (pos : Nat) : GetIdResult :=
  let timestamp := clock pos
  let pos1 := pos + 1
  if timestamp < st.lastTimestamp then
    GetIdResult.clockBack (st.lastTimestamp - timestamp) st pos1
  else if timestamp = st.lastTimestamp then
    let sequence := (st.sequence + 1) &&& MAX_SEQUENCE
    if sequence = 0 then
      match waitNextMillis clock timestamp pos1 fuel with
      | none => GetIdResult.outOfFuel
      | some (timestamp2, pos2) =>
        GetIdResult.ok (encodeId g timestamp2 sequence)
          { sequence := sequence, lastTimestamp := timestamp2 } pos2
    else
      GetIdResult.ok (encodeId g timestamp sequence)
        { sequence := sequence, lastTimestamp := timestamp } pos1
  else
    GetIdResult.ok (encodeId g timestamp 0)
      { sequence := 0, lastTimestamp := timestamp } pos1

/-- Repeated calls of `getId` on one instance, collecting the returned ids;
`none` when some call threw or ran out of busy-wait fuel. -/
def runIds (g : GeneratorIdentity) (clock : Nat → Int) (fuel : Nat) :
    Nat → SnowflakeState → Nat → Option (List Int × SnowflakeState × Nat)
  | 0, st, pos => some ([], st, pos)
  | n + 1, st, pos =>
    match getId g clock fuel st pos with
    | GetIdResult.ok id st' pos' =>
      match runIds g clock fuel n st' pos' with
      | some (ids, st'', pos'') => some (id :: ids, st'', pos'')
      | none => none
    | _ => none

/-- Whether `runIds` completes with every call returning an id. -/
def runOk (g : GeneratorIdentity) (clock : Nat → Int) (fuel n : Nat)
    (st : SnowflakeState) (pos : Nat) : Bool :=
  (runIds g clock fuel n st pos).isSome

/-- The list of ids returned by `runIds` (empty if the run failed). -/
def runList (g : GeneratorIdentity) (clock : Nat → Int) (fuel n : Nat)
    (st : SnowflakeState) (pos : Nat) : List Int :=
  match runIds g clock fuel n st pos with
  | some (ids, _, _) => ids
  | none => []

/-- `IdService.getSnowflake` (`id.service.ts` lines 130-135): the final
options are `options || this.options.snowflake` (an object is always truthy,
so an explicitly passed object wins), a **fresh** `SnowflakeGenerator` is
constructed, and its `getId()` is invoked once. -/
def getSnowflake (serviceSnowflakeOptions : Option SnowflakeOptions)
    (options : Option SnowflakeOptions) (clock : Nat → Int) (fuel : Nat)
    (pos : Nat) : Except String GetIdResult :=
  let finalOptions : Option SnowflakeOptions :=
    match options with
    | some o => some o
    | none => serviceSnowflakeOptions
  match mkSnowflakeGenerator finalOptions with
  | Except.error e => Except.error e
  | Except.ok (generator, st) => Except.ok (getId generator clock fuel st pos)

/-! ### Arithmetic view of the bit packing -/

/-- Value of the packed id written as a sum: with all four fields in range
the bitwise packing of `encodeId` coincides with this linear expression
(`4194304 = 2^22`, `131072 = 2^17`, `4096 = 2^12`). -/
def packedValue (g : GeneratorIdentity) (timestamp : Int) (sequence : Nat) : Int :=
  (timestamp - g.epoch) * 4194304 + g.workerId * 131072 + g.processId * 4096 + (sequence : Int)

theorem max_worker_id_eq : MAX_WORKER_ID = 31 := by decide

theorem max_process_id_eq : MAX_PROCESS_ID = 31 := by decide

theorem max_sequence_eq : MAX_SEQUENCE = 4095 := by decide

theorem nat_pack (a w p s : Nat) (hw : w < 32) (hp : p < 32) (hs : s < 4096) :
    ((a <<< 22 ||| w <<< 17) ||| p <<< 12) ||| s
      = a * 4194304 + w * 131072 + p * 4096 + s := by
  rw [Nat.shiftLeft_eq, Nat.shiftLeft_eq, Nat.shiftLeft_eq]
  have e1 : a * 2 ^ 22 ||| w * 2 ^ 17 = 2 ^ 22 * a + w * 2 ^ 17 := by
    rw [Nat.mul_comm a]
    exact (Nat.mul_add_lt_is_or (by omega) a).symm
  have h2 : 2 ^ 22 * a + w * 2 ^ 17 = 2 ^ 17 * (2 ^ 5 * a + w) := by ring
  have e2 : 2 ^ 22 * a + w * 2 ^ 17 ||| p * 2 ^ 12
      = 2 ^ 22 * a + w * 2 ^ 17 + p * 2 ^ 12 := by
    rw [h2, ← Nat.mul_add_lt_is_or (show p * 2 ^ 12 < 2 ^ 17 by omega) (2 ^ 5 * a + w)]
  have h3 : 2 ^ 22 * a + w * 2 ^ 17 + p * 2 ^ 12
      = 2 ^ 12 * (2 ^ 10 * a + 2 ^ 5 * w + p) := by ring
  have e3 : 2 ^ 22 * a + w * 2 ^ 17 + p * 2 ^ 12 ||| s
      = 2 ^ 22 * a + w * 2 ^ 17 + p * 2 ^ 12 + s := by
    rw [h3, ← Nat.mul_add_lt_is_or (show s < 2 ^ 12 by omega) (2 ^ 10 * a + 2 ^ 5 * w + p)]
  rw [e1, e2, e3]
  ring

theorem lor_natCast (x y : Nat) : Int.lor (x : Int) (y : Int) = ((x ||| y : Nat) : Int) := rfl

/-- With the epoch below the timestamp and all fields in range, the bitwise
packing equals the arithmetic `packedValue`. -/
theorem encodeId_eq_packed (g : GeneratorIdentity) (t : Int) (s : Nat)
    (he : g.epoch ≤ t)
    (hw0 : 0 ≤ g.workerId) (hw : g.workerId ≤ 31)
    (hp0 : 0 ≤ g.processId) (hp : g.processId ≤ 31)
    (hs : s ≤ 4095) :
    encodeId g t s = packedValue g t s := by
  obtain ⟨a, ha⟩ := Int.le.dest he
  obtain ⟨w, hwn⟩ := Int.le.dest hw0
  obtain ⟨p, hpn⟩ := Int.le.dest hp0
  have hta : t - g.epoch = (a : Int) := by omega
  have hgw : g.workerId = (w : Int) := by omega
  have hgp : g.processId = (p : Int) := by omega
  have hwlt : w < 32 := by omega
  have hplt : p < 32 := by omega
  show Int.lor (Int.lor (Int.lor _ _) _) _ = _
  rw [hta, hgw, hgp]
  rw [Int.shiftLeft_coe_nat a TIMESTAMP_SHIFT, Int.shiftLeft_coe_nat w WORKER_ID_SHIFT,
    Int.shiftLeft_coe_nat p PROCESS_ID_SHIFT]
  rw [lor_natCast, lor_natCast, lor_natCast]
  rw [show TIMESTAMP_SHIFT = 22 from rfl, show WORKER_ID_SHIFT = 17 from rfl,
    show PROCESS_ID_SHIFT = 12 from rfl]
  rw [nat_pack a w p s hwlt hplt (by omega)]
  unfold packedValue
  rw [hta, hgw, hgp]
  push_cast
  ring

/-- `packedValue` is strictly monotone in the lexicographic order of
`(timestamp, sequence)`. -/
theorem packed_strict_mono (g : GeneratorIdentity) (t1 t2 : Int) (s1 s2 : Nat)
    (hw0 : 0 ≤ g.workerId) (hw : g.workerId ≤ 31)
    (hp0 : 0 ≤ g.processId) (hp : g.processId ≤ 31)
    (hs1 : s1 ≤ 4095) (hs2 : s2 ≤ 4095)
    (h : t1 < t2 ∨ (t1 = t2 ∧ s1 < s2)) :
    packedValue g t1 s1 < packedValue g t2 s2 := by
  unfold packedValue
  omega

/-- With the timestamp offset within 41 bits, the packed value fits in an
unsigned 64-bit integer (it is below `2^63`, hence below `2^64`). -/
theorem packed_range (g : GeneratorIdentity) (t : Int) (s : Nat)
    (hw0 : 0 ≤ g.workerId) (hw : g.workerId ≤ 31)
    (hp0 : 0 ≤ g.processId) (hp : g.processId ≤ 31)
    (hs : s ≤ 4095)
    (hlo : g.epoch ≤ t) (hhi : t ≤ g.epoch + 2199023255551) :
    0 ≤ packedValue g t s ∧ packedValue g t s < 18446744073709551616 := by
  unfold packedValue
  omega

/-! ### The busy-wait loop -/

/-- Inversion: a successful busy-wait returns a clock reading strictly above
`last`, taken at some position at or after the starting one. -/
theorem waitNextMillis_some (clock : Nat → Int) (last : Int) :
    ∀ fuel pos t pos', waitNextMillis clock last pos fuel = some (t, pos') →
      ∃ k, pos ≤ k ∧ pos' = k + 1 ∧ clock k = t ∧ last < t := by
  intro fuel
  induction fuel with
  | zero => intro pos t pos' h; simp [waitNextMillis] at h
  | succ fuel ih =>
    intro pos t pos' h
    unfold waitNextMillis at h
    by_cases hc : clock pos ≤ last
    · simp only [hc, if_pos] at h
      obtain ⟨k, hk1, hk2, hk3, hk4⟩ := ih (pos + 1) t pos' h
      exact ⟨k, by omega, hk2, hk3, hk4⟩
    · simp only [hc, if_neg, if_false] at h
      refine ⟨pos, Nat.le_refl _, ?_, ?_, ?_⟩ <;>
        first
          | omega
          | (cases h; omega)
          | (cases h; rfl)

/-- If the first reading strictly above `last` occurs `n` positions after the
start, the busy-wait with more than `n` units of fuel returns exactly that
reading, together with the next position. -/
theorem waitNextMillis_first (clock : Nat → Int) (last : Int) :
    ∀ n pos, (∀ k, k < n → clock (pos + k) ≤ last) → last < clock (pos + n) →
      ∀ fuel, n < fuel →
        waitNextMillis clock last pos fuel = some (clock (pos + n), pos + n + 1) := by
  intro n
  induction n with
  | zero =>
    intro pos _ hgt fuel hfuel
    match fuel, hfuel with
    | fuel + 1, _ =>
      unfold waitNextMillis
      simp only [Nat.add_zero] at hgt
      simp [Int.not_le.mpr hgt]
  | succ n ih =>
    intro pos hless hgt fuel hfuel
    match fuel, hfuel with
    | fuel + 1, hfuel =>
      unfold waitNextMillis
      have h0 : clock pos ≤ last := by
        have := hless 0 (Nat.succ_pos n)
        simpa using this
      simp only [h0, if_pos]
      have hless' : ∀ k, k < n → clock (pos + 1 + k) ≤ last := by
        intro k hk
        have := hless (k + 1) (by omega)
        have harr : pos + (k + 1) = pos + 1 + k := by omega
        rwa [harr] at this
      have hgt' : last < clock (pos + 1 + n) := by
        have harr : pos + (n + 1) = pos + 1 + n := by omega
        rwa [harr] at hgt
      have hres := ih (pos + 1) hless' hgt' fuel (by omega)
      have harr2 : pos + 1 + n = pos + (n + 1) := by omega
      rw [harr2] at hres
      exact hres

/-! ### Two's-complement masking facts -/

theorem land_natCast (x y : Nat) : Int.land (x : Int) (y : Int) = ((x &&& y : Nat) : Int) := rfl

theorem ldiff_lt_pow (a b k : Nat) (h : a < 2 ^ k) : Nat.ldiff a b < 2 ^ k := by
  apply Nat.lt_pow_two_of_testBit
  intro i hi
  rw [Nat.testBit_ldiff]
  have ha : a.testBit i = false :=
    Nat.testBit_lt_two_pow (Nat.lt_of_lt_of_le h (Nat.pow_le_pow_right (by norm_num) hi))
  simp [ha]

/-- Two's-complement AND with a nonnegative mask is nonnegative, for every
integer (also negative ones). -/
theorem int_land_mask_nonneg (x : Int) (m : Nat) : 0 ≤ Int.land x (m : Int) := by
  cases x with
  | ofNat n => exact Int.ofNat_nonneg _
  | negSucc n => exact Int.ofNat_nonneg _

/-- Two's-complement AND with the mask `2^k - 1` stays below `2^k`, for every
integer (also negative ones). -/
theorem int_land_mask_lt (x : Int) (k : Nat) :
    Int.land x ((2 ^ k - 1 : Nat) : Int) < ((2 ^ k : Nat) : Int) := by
  cases x with
  | ofNat n =>
    show (Int.ofNat (n &&& (2 ^ k - 1))) < _
    rw [Nat.and_pow_two_sub_one_eq_mod]
    exact Int.ofNat_lt.mpr (Nat.mod_lt _ (Nat.two_pow_pos k))
  | negSucc n =>
    show (Int.ofNat (Nat.ldiff (2 ^ k - 1) n)) < _
    refine Int.ofNat_lt.mpr (ldiff_lt_pow _ n k ?_)
    have := Nat.two_pow_pos k
    omega

/-! ### Decoding a packed value -/

/-- The `Number(bigint)` conversion is the identity on every integer of
magnitude at most `2^53` (the float64 integer-exact range). -/
theorem jsNumber_eq_self (n : Int) (h1 : -9007199254740992 ≤ n)
    (h2 : n ≤ 9007199254740992) : jsNumber n = n := by
  have hm : n.natAbs ≤ 9007199254740992 := by omega
  unfold jsNumber jsNumberNat
  rw [if_pos hm]
  split <;> omega

theorem nat_unpack (a w p s : Nat) (hw : w < 32) (hp : p < 32) (hs : s < 4096) :
    (a * 4194304 + w * 131072 + p * 4096 + s) >>> 22 = a
    ∧ ((a * 4194304 + w * 131072 + p * 4096 + s) >>> 17) &&& 31 = w
    ∧ ((a * 4194304 + w * 131072 + p * 4096 + s) >>> 12) &&& 31 = p
    ∧ (a * 4194304 + w * 131072 + p * 4096 + s) &&& 4095 = s := by
  have e22 : (a * 4194304 + w * 131072 + p * 4096 + s) >>> 22
      = (a * 4194304 + w * 131072 + p * 4096 + s) / 4194304 := by
    rw [Nat.shiftRight_eq_div_pow]
  have e17 : (a * 4194304 + w * 131072 + p * 4096 + s) >>> 17
      = (a * 4194304 + w * 131072 + p * 4096 + s) / 131072 := by
    rw [Nat.shiftRight_eq_div_pow]
  have e12 : (a * 4194304 + w * 131072 + p * 4096 + s) >>> 12
      = (a * 4194304 + w * 131072 + p * 4096 + s) / 4096 := by
    rw [Nat.shiftRight_eq_div_pow]
  have m5 : ∀ x : Nat, x &&& 31 = x % 32 := by
    intro x
    have : (31 : Nat) = 2 ^ 5 - 1 := by norm_num
    rw [this, Nat.and_pow_two_sub_one_eq_mod]
  have m12 : ∀ x : Nat, x &&& 4095 = x % 4096 := by
    intro x
    have : (4095 : Nat) = 2 ^ 12 - 1 := by norm_num
    rw [this, Nat.and_pow_two_sub_one_eq_mod]
  refine ⟨?_, ?_, ?_, ?_⟩
  · rw [e22]; omega
  · rw [e17, m5]; omega
  · rw [e12, m5]; omega
  · rw [m12]; omega

/-- The decoded sequence of an encoded id is recovered exactly for every
epoch (no float64 bound is needed: the sequence component is at most
`4095`, on which `Number(...)` is the identity). -/
theorem deconstruct_encodeId_sequence (g : GeneratorIdentity) (t : Int) (s : Nat)
    (he : g.epoch ≤ t)
    (hw0 : 0 ≤ g.workerId) (hw : g.workerId ≤ 31)
    (hp0 : 0 ≤ g.processId) (hp : g.processId ≤ 31)
    (hs : s ≤ 4095) :
    (deconstruct g (encodeId g t s)).sequence = (s : Int) := by
  obtain ⟨a, ha⟩ := Int.le.dest he
  obtain ⟨w, hwn⟩ := Int.le.dest hw0
  obtain ⟨p, hpn⟩ := Int.le.dest hp0
  have hwlt : w < 32 := by omega
  have hplt : p < 32 := by omega
  have hslt : s < 4096 := by omega
  have hpacked : encodeId g t s
      = ((a * 4194304 + w * 131072 + p * 4096 + s : Nat) : Int) := by
    rw [encodeId_eq_packed g t s he hw0 hw hp0 hp hs]
    unfold packedValue
    push_cast
    omega
  obtain ⟨u22, u17, u12, u0⟩ := nat_unpack a w p s hwlt hplt hslt
  rw [hpacked]
  simp only [deconstruct, max_sequence_eq]
  rw [land_natCast, u0]
  exact jsNumber_eq_self ((s : Nat) : Int) (by omega) (by omega)

/-! ### Single-step and whole-run invariants -/

theorem seq_mask (x : Nat) (h : x ≤ 4095) :
    (x + 1) &&& MAX_SEQUENCE = if x = 4095 then 0 else x + 1 := by
  have hm : (x + 1) &&& MAX_SEQUENCE = (x + 1) % 4096 := by
    rw [max_sequence_eq, show (4095 : Nat) = 2 ^ 12 - 1 from by norm_num,
      Nat.and_pow_two_sub_one_eq_mod]
  rw [hm]
  split <;> omega

/-- Inversion of a successful `getId` call: the returned id is the packing of
the updated state; the clock position advances; the sequence stays in range;
the `(lastTimestamp, sequence)` pair strictly increases lexicographically;
and the new `lastTimestamp` is a clock reading taken during the call. -/
theorem getId_ok_step (g : GeneratorIdentity) (clock : Nat → Int) (fuel : Nat)
    (st : SnowflakeState) (pos : Nat) (id : Int) (st' : SnowflakeState) (pos' : Nat)
    (hseq : st.sequence ≤ 4095)
    (hok : getId g clock fuel st pos = GetIdResult.ok id st' pos') :
    id = encodeId g st'.lastTimestamp st'.sequence
    ∧ pos < pos'
    ∧ st'.sequence ≤ 4095
    ∧ (st.lastTimestamp < st'.lastTimestamp
        ∨ (st'.lastTimestamp = st.lastTimestamp ∧ st'.sequence = st.sequence + 1))
    ∧ (∃ k, pos ≤ k ∧ k < pos' ∧ clock k = st'.lastTimestamp) := by
  simp only [getId] at hok
  by_cases h1 : clock pos < st.lastTimestamp
  · rw [if_pos h1] at hok
    exact GetIdResult.noConfusion hok
  · rw [if_neg h1] at hok
    by_cases h2 : clock pos = st.lastTimestamp
    · rw [if_pos h2] at hok
      rw [seq_mask st.sequence hseq] at hok
      by_cases h3 : st.sequence = 4095
      · rw [if_pos h3, if_pos rfl] at hok
        cases hwait : waitNextMillis clock (clock pos) (pos + 1) fuel with
        | none =>
          rw [hwait] at hok
          exact GetIdResult.noConfusion hok
        | some tp =>
          obtain ⟨t2, p2⟩ := tp
          rw [hwait] at hok
          cases hok
          obtain ⟨k, hk1, hk2, hk3, hk4⟩ := waitNextMillis_some clock (clock pos) fuel _ _ _ hwait
          dsimp only
          refine ⟨rfl, by omega, by omega, Or.inl (by omega), k, by omega, by omega, hk3⟩
      · rw [if_neg h3] at hok
        have hne : ¬ (st.sequence + 1 = 0) := by omega
        rw [if_neg hne] at hok
        cases hok
        dsimp only
        exact ⟨rfl, by omega, by omega, Or.inr ⟨h2, rfl⟩, pos, Nat.le_refl _, by omega, rfl⟩
    · rw [if_neg h2] at hok
      cases hok
      dsimp only
      refine ⟨rfl, by omega, by omega, Or.inl (by omega), pos, Nat.le_refl _, by omega, rfl⟩

/-- A successful run of `n` calls returns `n` ids. -/
theorem runIds_length (g : GeneratorIdentity) (clock : Nat → Int) (fuel : Nat) :
    ∀ n st pos ids st'' pos'',
      runIds g clock fuel n st pos = some (ids, st'', pos'') → ids.length = n := by
  intro n
  induction n with
  | zero =>
    intro st pos ids st'' pos'' h
    simp only [runIds] at h
    cases h
    rfl
  | succ n ih =>
    intro st pos ids st'' pos'' h
    simp only [runIds] at h
    cases hg : getId g clock fuel st pos with
    | ok id st1 pos1 =>
      rw [hg] at h
      dsimp only at h
      cases hr : runIds g clock fuel n st1 pos1 with
      | none => rw [hr] at h; exact Option.noConfusion h
      | some r =>
        obtain ⟨ids1, st2, pos2⟩ := r
        rw [hr] at h
        cases h
        simp [ih _ _ _ _ _ hr]
    | clockBack m st1 pos1 =>
      rw [hg] at h
      dsimp only at h
      exact Option.noConfusion h
    | outOfFuel =>
      rw [hg] at h
      dsimp only at h
      exact Option.noConfusion h

/-- Every id returned by a successful run is strictly above the packed value
of the starting state, the ids are strictly increasing pairwise, each id is
in the unsigned 64-bit range, and the final sequence is in range.  The
clock hypotheses are exactly the spec's preconditions: readings at least the
epoch and at most `epoch + 2^41 - 1`. -/
theorem runIds_spec (g : GeneratorIdentity) (clock : Nat → Int) (fuel : Nat)
    (hw0 : 0 ≤ g.workerId) (hw : g.workerId ≤ 31)
    (hp0 : 0 ≤ g.processId) (hp : g.processId ≤ 31)
    (hlo : ∀ i, g.epoch ≤ clock i)
    (hhi : ∀ i, clock i ≤ g.epoch + 2199023255551) :
    ∀ n st pos ids st'' pos'',
      st.sequence ≤ 4095 →
      runIds g clock fuel n st pos = some (ids, st'', pos'') →
      List.Pairwise (· < ·) ids
      ∧ (∀ id ∈ ids, packedValue g st.lastTimestamp st.sequence < id)
      ∧ (∀ id ∈ ids, 0 ≤ id ∧ id < 18446744073709551616)
      ∧ st''.sequence ≤ 4095 := by
  intro n
  induction n with
  | zero =>
    intro st pos ids st'' pos'' hseq h
    simp only [runIds] at h
    cases h
    exact ⟨List.Pairwise.nil, by simp, by simp, hseq⟩
  | succ n ih =>
    intro st pos ids st'' pos'' hseq h
    simp only [runIds] at h
    cases hg : getId g clock fuel st pos with
    | ok id st1 pos1 =>
      rw [hg] at h
      dsimp only at h
      cases hr : runIds g clock fuel n st1 pos1 with
      | none => rw [hr] at h; exact Option.noConfusion h
      | some r =>
        obtain ⟨ids1, st2, pos2⟩ := r
        rw [hr] at h
        cases h
        obtain ⟨hid, hpos, hseq1, hlex, k, hk1, hk2, hk3⟩ :=
          getId_ok_step g clock fuel st pos id st1 pos1 hseq hg
        have hlo1 : g.epoch ≤ st1.lastTimestamp := hk3 ▸ hlo k
        have hhi1 : st1.lastTimestamp ≤ g.epoch + 2199023255551 := hk3 ▸ hhi k
        have hidp : id = packedValue g st1.lastTimestamp st1.sequence := by
          rw [hid]
          exact encodeId_eq_packed g _ _ hlo1 hw0 hw hp0 hp hseq1
        have hlt : packedValue g st.lastTimestamp st.sequence
            < packedValue g st1.lastTimestamp st1.sequence :=
          packed_strict_mono g _ _ _ _ hw0 hw hp0 hp hseq hseq1 (by omega)
        obtain ⟨hpw, hbound, hrange, hseq2⟩ := ih _ _ _ _ _ hseq1 hr
        refine ⟨?_, ?_, ?_, hseq2⟩
        · refine List.Pairwise.cons ?_ hpw
          intro b hb
          calc id = packedValue g st1.lastTimestamp st1.sequence := hidp
            _ < b := hbound b hb
        · intro x hx
          rcases List.mem_cons.mp hx with hx | hx
          · rw [hx, hidp]; exact hlt
          · exact lt_trans hlt (hbound x hx)
        · intro x hx
          rcases List.mem_cons.mp hx with hx | hx
          · rw [hx, hidp]
            exact packed_range g _ _ hw0 hw hp0 hp hseq1 hlo1 hhi1
          · exact hrange x hx
    | clockBack m st1 pos1 =>
      rw [hg] at h
      dsimp only at h
      exact Option.noConfusion h
    | outOfFuel =>
      rw [hg] at h
      dsimp only at h
      exact Option.noConfusion h

/-- Runs compose: a successful `m`-call run followed by an `n`-call run from
the reached state is the `(m + n)`-call run, with the id lists concatenated. -/
theorem runIds_append (g : GeneratorIdentity) (clock : Nat → Int) (fuel : Nat) :
    ∀ m n st pos ids1 st1 pos1,
      runIds g clock fuel m st pos = some (ids1, st1, pos1) →
      runIds g clock fuel (m + n) st pos =
        (runIds g clock fuel n st1 pos1).map (fun r => (ids1 ++ r.1, r.2)) := by
  intro m
  induction m with
  | zero =>
    intro n st pos ids1 st1 pos1 h1
    simp only [runIds] at h1
    cases h1
    rw [Nat.zero_add]
    cases hr : runIds g clock fuel n st pos with
    | none => simp [hr]
    | some r => simp [hr]
  | succ m ih =>
    intro n st pos ids1 st1 pos1 h1
    simp only [runIds] at h1
    rw [Nat.succ_add]
    simp only [runIds]
    cases hg : getId g clock fuel st pos with
    | ok id stA posA =>
      rw [hg] at h1
      dsimp only at h1
      cases hm : runIds g clock fuel m stA posA with
      | none => rw [hm] at h1; exact Option.noConfusion h1
      | some r1 =>
        obtain ⟨idsm, stm, posm⟩ := r1
        rw [hm] at h1
        cases h1
        dsimp only
        rw [ih n stA posA idsm st1 pos1 hm]
        cases hr : runIds g clock fuel n st1 pos1 with
        | none => simp [hr]
        | some r => simp [hr]
    | clockBack mg stA posA =>
      rw [hg] at h1
      dsimp only at h1
      exact Option.noConfusion h1
    | outOfFuel =>
      rw [hg] at h1
      dsimp only at h1
      exact Option.noConfusion h1

/-- A run of `m` calls under a clock frozen at `T`, starting from a state in
the same millisecond with enough sequence budget, succeeds without waiting:
the sequence counts up one per call and the position advances one per call. -/
theorem runIds_frozen (g : GeneratorIdentity) (clock : Nat → Int) (fuel : Nat) (T : Int) :
    ∀ m s pos, s + m ≤ 4095 → (∀ k, pos ≤ k → k < pos + m → clock k = T) →
      runIds g clock fuel m { sequence := s, lastTimestamp := T } pos
        = some ((List.range m).map (fun i => encodeId g T (s + i + 1)),
            { sequence := s + m, lastTimestamp := T }, pos + m) := by
  intro m
  induction m with
  | zero =>
    intro s pos _ _
    simp [runIds]
  | succ m ih =>
    intro s pos hbudget hclk
    have hpos : clock pos = T := hclk pos (Nat.le_refl pos) (by omega)
    have hstep : getId g clock fuel { sequence := s, lastTimestamp := T } pos
        = GetIdResult.ok (encodeId g T (s + 1))
            { sequence := s + 1, lastTimestamp := T } (pos + 1) := by
      simp only [getId]
      rw [hpos]
      rw [if_neg (show ¬ T < T by omega), if_pos rfl]
      rw [seq_mask s (by omega)]
      rw [if_neg (show ¬ s = 4095 by omega)]
      rw [if_neg (show ¬ s + 1 = 0 by omega)]
    simp only [runIds, hstep]
    rw [ih (s + 1) (pos + 1) (by omega) (fun k hk1 hk2 => hclk k (by omega) (by omega))]
    dsimp only
    rw [List.range_succ_eq_map, List.map_cons, List.map_map]
    have harr : s + 0 + 1 = s + 1 := by omega
    have hfun : ((fun i => encodeId g T (s + i + 1)) ∘ (· + 1))
        = fun i => encodeId g T (s + 1 + i + 1) := by
      funext i
      simp only [Function.comp]
      have : s + (i + 1) + 1 = s + 1 + i + 1 := by omega
      rw [this]
    rw [harr, hfun]
    have hs : s + 1 + m = s + (m + 1) := by omega
    have hp : pos + 1 + m = pos + (m + 1) := by omega
    rw [hs, hp]

/-! ### Constructor computation lemmas -/

theorem mkSnowflakeGenerator_ok (w p : Int) (e : Option Int)
    (hw0 : 0 ≤ w) (hw : w ≤ 31) (hp0 : 0 ≤ p) (hp : p ≤ 31) :
    mkSnowflakeGenerator (some { workerId := some w, processId := some p, epoch := e })
      = Except.ok
          ({ workerId := w, processId := p,
             epoch := (match e with
               | some ev => if ev = 0 then DEFAULT_EPOCH else ev
               | none => DEFAULT_EPOCH) },
           freshState) := by
  simp only [mkSnowflakeGenerator, max_worker_id_eq, max_process_id_eq, Option.bind,
    Option.getD_some]
  rw [if_neg (by push_cast; omega), if_neg (by push_cast; omega)]

theorem mkSnowflakeGenerator_err_worker (w p : Int) (e : Option Int)
    (h : w < 0 ∨ 31 < w) :
    mkSnowflakeGenerator (some { workerId := some w, processId := some p, epoch := e })
      = Except.error "Worker ID must be between 0 and 31" := by
  simp only [mkSnowflakeGenerator, max_worker_id_eq, Option.bind, Option.getD_some]
  rw [if_pos (by push_cast; omega)]
  rfl

theorem mkSnowflakeGenerator_err_process (w p : Int) (e : Option Int)
    (hw0 : 0 ≤ w) (hw : w ≤ 31) (h : p < 0 ∨ 31 < p) :
    mkSnowflakeGenerator (some { workerId := some w, processId := some p, epoch := e })
      = Except.error "Process ID must be between 0 and 31" := by
  simp only [mkSnowflakeGenerator, max_worker_id_eq, max_process_id_eq, Option.bind,
    Option.getD_some]
  rw [if_neg (by push_cast; omega), if_pos (by push_cast; omega)]
  rfl

theorem mkSnowflakeGenerator_state (o : Option SnowflakeOptions)
    (g : GeneratorIdentity) (st : SnowflakeState)
    (h : mkSnowflakeGenerator o = Except.ok (g, st)) : st = freshState := by
  simp only [mkSnowflakeGenerator] at h
  split at h
  · exact Except.noConfusion h
  · split at h
    · exact Except.noConfusion h
    · cases h
      rfl

/-- A successful construction implies the validated ranges of the worker and
process ids. -/
theorem mkSnowflakeGenerator_ok_inv (o : Option SnowflakeOptions)
    (g : GeneratorIdentity) (st : SnowflakeState)
    (h : mkSnowflakeGenerator o = Except.ok (g, st)) :
    0 ≤ g.workerId ∧ g.workerId ≤ 31 ∧ 0 ≤ g.processId ∧ g.processId ≤ 31 := by
  simp only [mkSnowflakeGenerator, max_worker_id_eq, max_process_id_eq] at h
  split at h
  · exact Except.noConfusion h
  · rename_i hwc
    split at h
    · exact Except.noConfusion h
    · rename_i hpc
      cases h
      dsimp only
      push_cast at hwc hpc
      omega

/-- The first `getId` call on a freshly constructed generator, with a
nonnegative clock reading, takes the new-millisecond branch: it returns the
packing of the reading with sequence `0`. -/
theorem getId_fresh (g : GeneratorIdentity) (clock : Nat → Int) (fuel : Nat) (pos : Nat)
    (h : 0 ≤ clock pos) :
    getId g clock fuel freshState pos
      = GetIdResult.ok (encodeId g (clock pos) 0)
          { sequence := 0, lastTimestamp := clock pos } (pos + 1) := by
  simp only [getId, freshState]
  rw [if_neg (by omega), if_neg (by omega)]

/-! ### Claim theorems -/

/-- C3 counterexample: constructing with an explicitly supplied epoch of `0`
does not use `0`; the JavaScript `||` default makes the generator use the
default constant `1733011200000` instead. -/
theorem epoch_zero_counterexample :
    mkSnowflakeGenerator
        (some { workerId := some 1, processId := some 1, epoch := some 0 })
      = Except.ok
          ({ workerId := 1, processId := 1, epoch := 1733011200000 }, freshState)
    ∧ (1733011200000 : Int) ≠ 0 := by
  constructor
  · rw [mkSnowflakeGenerator_ok 1 1 (some 0) (by norm_num) (by norm_num) (by norm_num)
      (by norm_num)]
    rfl
  · norm_num

/-- C3 (amended): every explicitly supplied **nonzero** epoch is the epoch of
the constructed generator (used for encoding and decoding); when the epoch is
absent or `0`, the default constant `1733011200000` is used. -/
theorem epoch_override (w p : Int) (e : Option Int)
    (hw0 : 0 ≤ w) (hw : w ≤ 31) (hp0 : 0 ≤ p) (hp : p ≤ 31) :
    (∀ ev : Int, e = some ev → ev ≠ 0 →
      mkSnowflakeGenerator (some { workerId := some w, processId := some p, epoch := e })
        = Except.ok ({ workerId := w, processId := p, epoch := ev }, freshState))
    ∧ ((e = none ∨ e = some 0) →
      mkSnowflakeGenerator (some { workerId := some w, processId := some p, epoch := e })
        = Except.ok ({ workerId := w, processId := p, epoch := DEFAULT_EPOCH }, freshState)) := by
  constructor
  · intro ev hev hne
    subst hev
    rw [mkSnowflakeGenerator_ok w p (some ev) hw0 hw hp0 hp]
    simp [hne]
  · intro hdef
    rcases hdef with hdef | hdef <;> subst hdef <;>
      rw [mkSnowflakeGenerator_ok w p _ hw0 hw hp0 hp] <;> simp

/-- C3 witness: an explicitly supplied nonzero epoch (`42`) is used, and an
absent epoch yields the default constant. -/
theorem epoch_override_witness :
    mkSnowflakeGenerator
        (some { workerId := some 1, processId := some 1, epoch := some 42 })
      = Except.ok ({ workerId := 1, processId := 1, epoch := 42 }, freshState)
    ∧ mkSnowflakeGenerator
        (some { workerId := some 1, processId := some 1, epoch := none })
      = Except.ok
          ({ workerId := 1, processId := 1, epoch := DEFAULT_EPOCH }, freshState) :=
  ⟨(epoch_override 1 1 (some 42) (by norm_num) (by norm_num) (by norm_num)
      (by norm_num)).1 42 rfl (by norm_num),
   (epoch_override 1 1 none (by norm_num) (by norm_num) (by norm_num)
      (by norm_num)).2 (Or.inl rfl)⟩

/-- C5: when the clock reading is strictly below the stored `lastTimestamp`,
`getId` throws the clock-regression error carrying the magnitude
`lastTimestamp - now`, and no id is returned. -/
theorem clock_regression_error (g : GeneratorIdentity) (clock : Nat → Int)
    (fuel : Nat) (st : SnowflakeState) (pos : Nat)
    (h : clock pos < st.lastTimestamp) :
    getId g clock fuel st pos
      = GetIdResult.clockBack (st.lastTimestamp - clock pos) st (pos + 1) := by
  simp only [getId]
  rw [if_pos h]

/-- C5 witness: the spec's scenario with `lastTimestamp` seeded `5000` ahead
of the clock; the error reports a regression of exactly `5000` milliseconds. -/
theorem clock_regression_error_witness :
    (fun _ : Nat => (0 : Int)) 0 < (5000 : Int)
    ∧ getId { workerId := 1, processId := 1, epoch := 0 } (fun _ => 0) 0
        { sequence := 0, lastTimestamp := 5000 } 0
      = GetIdResult.clockBack 5000 { sequence := 0, lastTimestamp := 5000 } 1 := by
  refine ⟨by norm_num, ?_⟩
  have h := clock_regression_error { workerId := 1, processId := 1, epoch := 0 }
    (fun _ => 0) 0 { sequence := 0, lastTimestamp := 5000 } 0 (by norm_num)
  exact h

/-- C8: a clock-regression failure leaves the generator state exactly as it
was: the carried state of the error equals the pre-call state in both fields,
so a later call starts from the identical state. -/
theorem clock_regression_preserves_state (g : GeneratorIdentity)
    (clock : Nat → Int) (fuel : Nat) (st : SnowflakeState) (pos : Nat)
    (h : clock pos < st.lastTimestamp) :
    (∃ m, getId g clock fuel st pos = GetIdResult.clockBack m st (pos + 1))
    ∧ ∀ m st' pos', getId g clock fuel st pos = GetIdResult.clockBack m st' pos' →
        st'.lastTimestamp = st.lastTimestamp ∧ st'.sequence = st.sequence := by
  have hgot : getId g clock fuel st pos
      = GetIdResult.clockBack (st.lastTimestamp - clock pos) st (pos + 1) := by
    simp only [getId]
    rw [if_pos h]
  constructor
  · exact ⟨st.lastTimestamp - clock pos, hgot⟩
  · intro m st' pos' hres
    rw [hgot] at hres
    cases hres
    exact ⟨rfl, rfl⟩

/-- C8 witness: a concrete regression (stored timestamp `7`, reading `3`)
fails and carries back the untouched state. -/
theorem clock_regression_preserves_state_witness :
    (fun _ : Nat => (3 : Int)) 0 < (7 : Int)
    ∧ (∃ m, getId { workerId := 2, processId := 3, epoch := 0 } (fun _ => 3) 5
          { sequence := 11, lastTimestamp := 7 } 0
        = GetIdResult.clockBack m { sequence := 11, lastTimestamp := 7 } 1)
    ∧ ∀ m st' pos',
        getId { workerId := 2, processId := 3, epoch := 0 } (fun _ => 3) 5
            { sequence := 11, lastTimestamp := 7 } 0
          = GetIdResult.clockBack m st' pos' →
        st'.lastTimestamp
          = ({ sequence := 11, lastTimestamp := (7 : Int) } : SnowflakeState).lastTimestamp
        ∧ st'.sequence = ({ sequence := 11, lastTimestamp := (7 : Int) } : SnowflakeState).sequence := by
  refine ⟨by norm_num, ?_⟩
  exact clock_regression_preserves_state { workerId := 2, processId := 3, epoch := 0 }
    (fun _ => 3) 5 { sequence := 11, lastTimestamp := 7 } 0 (by norm_num)

set_option maxRecDepth 8000 in
/-- C9 counterexample: at the parsed integer `2^76 + 2^22` (default epoch
`1733011200000`), the shifted-plus-epoch value `18016131520681985` exceeds
`2^53`, and the source's `Number(...)` conversion (line 112) rounds it to
`18016131520681984`: the returned timestamp does not equal
`(id >> 22) + epoch`. -/
theorem deconstruct_number_counterexample :
    (deconstruct { workerId := 1, processId := 1, epoch := 1733011200000 }
        (2 ^ 76 + 2 ^ 22)).timestamp = 18016131520681984
    ∧ ((2 ^ 76 + 2 ^ 22 : Int) >>> TIMESTAMP_SHIFT) + 1733011200000
      = 18016131520681985
    ∧ (deconstruct { workerId := 1, processId := 1, epoch := 1733011200000 }
        (2 ^ 76 + 2 ^ 22)).timestamp
      ≠ ((2 ^ 76 + 2 ^ 22 : Int) >>> TIMESTAMP_SHIFT) + 1733011200000 := by
  refine ⟨by decide, by decide, by decide⟩

/-- C9 (amended): the decoder is total on every parsed integer (also
out-of-range and negative ones): workerId and processId always land in
`[0, 31]` and the sequence always lands in `[0, 4095]` (extracted by mask,
on which the `Number(...)` conversion is the identity); the returned
timestamp is the float64 value (`Number(...)`) of the arithmetic right
shift by 22 plus the epoch, and equals `(id >> 22) + epoch` exactly
whenever that quantity's magnitude is at most `2^53`; the date mirrors the
timestamp.  Out-of-range inputs thus produce numerically consistent output
rather than a crash. -/
theorem deconstruct_total_ranges (g : GeneratorIdentity) (id : Int) :
    (deconstruct g id).timestamp = jsNumber ((id >>> TIMESTAMP_SHIFT) + g.epoch)
    ∧ (-9007199254740992 ≤ (id >>> TIMESTAMP_SHIFT) + g.epoch →
        (id >>> TIMESTAMP_SHIFT) + g.epoch ≤ 9007199254740992 →
        (deconstruct g id).timestamp = (id >>> TIMESTAMP_SHIFT) + g.epoch)
    ∧ 0 ≤ (deconstruct g id).workerId ∧ (deconstruct g id).workerId ≤ 31
    ∧ 0 ≤ (deconstruct g id).processId ∧ (deconstruct g id).processId ≤ 31
    ∧ 0 ≤ (deconstruct g id).sequence ∧ (deconstruct g id).sequence ≤ 4095
    ∧ (deconstruct g id).date = (deconstruct g id).timestamp := by
  have h31 : ((2 ^ 5 - 1 : Nat) : Int) = ((31 : Nat) : Int) := by norm_num
  have h32 : ((2 ^ 5 : Nat) : Int) = 32 := by norm_num
  have h4095 : ((2 ^ 12 - 1 : Nat) : Int) = ((4095 : Nat) : Int) := by norm_num
  have h4096 : ((2 ^ 12 : Nat) : Int) = 4096 := by norm_num
  have hwlt := int_land_mask_lt (id >>> WORKER_ID_SHIFT) 5
  have hplt := int_land_mask_lt (id >>> PROCESS_ID_SHIFT) 5
  have hslt := int_land_mask_lt id 12
  rw [h31, h32] at hwlt hplt
  rw [h4095, h4096] at hslt
  have hw0 := int_land_mask_nonneg (id >>> WORKER_ID_SHIFT) 31
  have hp0 := int_land_mask_nonneg (id >>> PROCESS_ID_SHIFT) 31
  have hs0 := int_land_mask_nonneg id 4095
  have hjw := jsNumber_eq_self (Int.land (id >>> WORKER_ID_SHIFT) ((31 : Nat) : Int))
    (by omega) (by omega)
  have hjp := jsNumber_eq_self (Int.land (id >>> PROCESS_ID_SHIFT) ((31 : Nat) : Int))
    (by omega) (by omega)
  have hjs := jsNumber_eq_self (Int.land id ((4095 : Nat) : Int))
    (by omega) (by omega)
  simp only [deconstruct, max_worker_id_eq, max_process_id_eq, max_sequence_eq]
  rw [hjw, hjp, hjs]
  refine ⟨?_, ?_, by omega, by omega, by omega, by omega, by omega, by omega, ?_⟩
  · trivial
  · intro hb1 hb2
    rw [jsNumber_eq_self _ hb1 hb2]
  · trivial

/-- C9 witness: at the ordinary id `12345` with epoch `0`, the shifted value
is within the float64-exact range and the timestamp is recovered exactly;
the worker id lies in range. -/
theorem deconstruct_total_ranges_witness :
    (deconstruct { workerId := 1, processId := 1, epoch := 0 } 12345).timestamp
      = ((12345 : Int) >>> TIMESTAMP_SHIFT)
        + ({ workerId := 1, processId := 1, epoch := 0 } : GeneratorIdentity).epoch
    ∧ 0 ≤ (deconstruct { workerId := 1, processId := 1, epoch := 0 } 12345).workerId := by
  have h := deconstruct_total_ranges { workerId := 1, processId := 1, epoch := 0 } 12345
  exact ⟨h.2.1 (by decide) (by decide), h.2.2.1⟩

/-- C10: whenever the clock stream eventually holds a reading strictly above
`lastTimestamp`, the busy-wait terminates (some fuel suffices) and returns
the first such reading in the stream. -/
theorem waitNextMillis_terminates (clock : Nat → Int) (last : Int) (pos : Nat)
    (h : ∃ n, last < clock (pos + n)) :
    ∃ n, (∀ k, k < n → clock (pos + k) ≤ last)
      ∧ last < clock (pos + n)
      ∧ ∀ fuel, n < fuel →
          waitNextMillis clock last pos fuel
            = some (clock (pos + n), pos + n + 1) := by
  refine ⟨Nat.find h, ?_, Nat.find_spec h, ?_⟩
  · intro k hk
    have := Nat.find_min h hk
    omega
  · intro fuel hfuel
    exact waitNextMillis_first clock last (Nat.find h) pos
      (fun k hk => by have := Nat.find_min h hk; omega) (Nat.find_spec h) fuel hfuel

/-- C10 witness: over the clock `k ↦ k` with `lastTimestamp = 2`, the wait
finds the first strictly larger reading. -/
theorem waitNextMillis_terminates_witness :
    ∃ n, (∀ k, k < n → (fun i : Nat => (i : Int)) (0 + k) ≤ 2)
      ∧ (2 : Int) < (fun i : Nat => (i : Int)) (0 + n)
      ∧ ∀ fuel, n < fuel →
          waitNextMillis (fun i : Nat => (i : Int)) 2 0 fuel
            = some ((fun i : Nat => (i : Int)) (0 + n), 0 + n + 1) :=
  waitNextMillis_terminates (fun i : Nat => (i : Int)) 2 0 ⟨3, by norm_num⟩

/-- C7: construction fails exactly when an explicitly supplied workerId or
processId leaves `[0, 31]`; the thrown error names the offending field; on
success the state starts at `lastTimestamp = -1`, `sequence = 0`. -/
theorem constructor_validation (w p : Int) (e : Option Int) :
    ((∃ g st, mkSnowflakeGenerator
        (some { workerId := some w, processId := some p, epoch := e })
          = Except.ok (g, st))
      ↔ (0 ≤ w ∧ w ≤ 31 ∧ 0 ≤ p ∧ p ≤ 31))
    ∧ (∀ g st, mkSnowflakeGenerator
        (some { workerId := some w, processId := some p, epoch := e })
          = Except.ok (g, st) →
        st.lastTimestamp = -1 ∧ st.sequence = 0)
    ∧ ((w < 0 ∨ 31 < w) →
        mkSnowflakeGenerator
          (some { workerId := some w, processId := some p, epoch := e })
            = Except.error "Worker ID must be between 0 and 31")
    ∧ ((0 ≤ w ∧ w ≤ 31) → (p < 0 ∨ 31 < p) →
        mkSnowflakeGenerator
          (some { workerId := some w, processId := some p, epoch := e })
            = Except.error "Process ID must be between 0 and 31") := by
  refine ⟨⟨?_, ?_⟩, ?_, ?_, ?_⟩
  · rintro ⟨g, st, hok⟩
    by_cases hwr : 0 ≤ w ∧ w ≤ 31
    · by_cases hpr : 0 ≤ p ∧ p ≤ 31
      · exact ⟨hwr.1, hwr.2, hpr.1, hpr.2⟩
      · rw [mkSnowflakeGenerator_err_process w p e hwr.1 hwr.2 (by omega)] at hok
        exact Except.noConfusion hok
    · rw [mkSnowflakeGenerator_err_worker w p e (by omega)] at hok
      exact Except.noConfusion hok
  · rintro ⟨hw0, hw, hp0, hp⟩
    exact ⟨_, _, mkSnowflakeGenerator_ok w p e hw0 hw hp0 hp⟩
  · intro g st hok
    have hst := mkSnowflakeGenerator_state _ _ _ hok
    subst hst
    exact ⟨rfl, rfl⟩
  · intro hrange
    exact mkSnowflakeGenerator_err_worker w p e hrange
  · intro hwr hrange
    exact mkSnowflakeGenerator_err_process w p e hwr.1 hwr.2 hrange

/-- C7 witness: `workerId = 32` fails naming the worker field; `workerId =
31` with `processId = 0` succeeds with the fresh state. -/
theorem constructor_validation_witness :
    mkSnowflakeGenerator
        (some { workerId := some 32, processId := some 1, epoch := none })
      = Except.error "Worker ID must be between 0 and 31"
    ∧ ∃ g st, mkSnowflakeGenerator
        (some { workerId := some 31, processId := some 0, epoch := none })
      = Except.ok (g, st) :=
  ⟨(constructor_validation 32 1 none).2.2.1 (by norm_num),
   (constructor_validation 31 0 none).1.mpr
     ⟨by norm_num, by norm_num, by norm_num, by norm_num⟩⟩

/-- C1: on one instance (valid worker and process ids), under the
preconditions that clock readings are non-decreasing, at least the epoch,
and at most `epoch + 2^41 - 1`, every completed sequence of `getId` calls
returns strictly increasing ids in the unsigned 64-bit range; in particular
they are pairwise distinct. -/
theorem snowflake_monotonic (g : GeneratorIdentity) (clock : Nat → Int)
    (fuel n : Nat) (ids : List Int) (st'' : SnowflakeState) (pos'' : Nat)
    (hw0 : 0 ≤ g.workerId) (hw : g.workerId ≤ 31)
    (hp0 : 0 ≤ g.processId) (hp : g.processId ≤ 31)
    (hmono : ∀ i j, i ≤ j → clock i ≤ clock j)
    (hlo : ∀ i, g.epoch ≤ clock i)
    (hhi : ∀ i, clock i ≤ g.epoch + 2199023255551)
    (hrun : runIds g clock fuel n freshState 0 = some (ids, st'', pos'')) :
    List.Pairwise (· < ·) ids
    ∧ (∀ id ∈ ids, 0 ≤ id ∧ id < 18446744073709551616)
    ∧ ids.Nodup := by
  obtain ⟨hpw, _, hrange, _⟩ := runIds_spec g clock fuel hw0 hw hp0 hp hlo hhi
    n freshState 0 ids st'' pos'' (by norm_num [freshState]) hrun
  exact ⟨hpw, hrange, hpw.imp ne_of_lt⟩

/-- C1 witness: three calls under a frozen clock at `5` with epoch `0`
produce three strictly increasing 64-bit ids. -/
theorem snowflake_monotonic_witness :
    List.Pairwise (· < ·) [(21106688 : Int), 21106689, 21106690]
    ∧ (∀ id ∈ [(21106688 : Int), 21106689, 21106690],
        0 ≤ id ∧ id < 18446744073709551616)
    ∧ [(21106688 : Int), 21106689, 21106690].Nodup :=
  snowflake_monotonic { workerId := 1, processId := 1, epoch := 0 }
    (fun _ => 5) 1 3 [21106688, 21106689, 21106690]
    { sequence := 2, lastTimestamp := 5 } 3
    (by norm_num) (by norm_num) (by norm_num) (by norm_num)
    (fun i j _ => le_refl 5) (fun i => by norm_num) (fun i => by norm_num)
    (by decide)

/-- C4: `IdService.getSnowflake` builds a fresh generator per invocation
(state `lastTimestamp = -1`, `sequence = 0`), so every id it returns decodes
to sequence `0`; two invocations with the same options whose clock readings
are equal (same millisecond) return the very same id. -/
theorem getSnowflake_fresh_collision (serviceOpts options : Option SnowflakeOptions)
    (clock clock' : Nat → Int) (fuel fuel' pos pos' : Nat)
    (g : GeneratorIdentity) (st0 : SnowflakeState)
    (hmk : mkSnowflakeGenerator
        (match options with | some o => some o | none => serviceOpts)
      = Except.ok (g, st0))
    (hnow : 0 ≤ clock pos)
    (hlo : g.epoch ≤ clock pos)
    (hhi : clock pos ≤ g.epoch + 2199023255551)
    (heq : clock' pos' = clock pos) :
    st0 = freshState
    ∧ getSnowflake serviceOpts options clock fuel pos
      = Except.ok (GetIdResult.ok (encodeId g (clock pos) 0)
          { sequence := 0, lastTimestamp := clock pos } (pos + 1))
    ∧ (deconstruct g (encodeId g (clock pos) 0)).sequence = 0
    ∧ getSnowflake serviceOpts options clock' fuel' pos'
      = Except.ok (GetIdResult.ok (encodeId g (clock pos) 0)
          { sequence := 0, lastTimestamp := clock pos } (pos' + 1)) := by
  obtain ⟨hw0, hw, hp0, hp⟩ := mkSnowflakeGenerator_ok_inv _ _ _ hmk
  have hst := mkSnowflakeGenerator_state _ _ _ hmk
  subst hst
  have hcall : ∀ (c : Nat → Int) (f p : Nat), c p = clock pos →
      getSnowflake serviceOpts options c f p
        = Except.ok (GetIdResult.ok (encodeId g (clock pos) 0)
            { sequence := 0, lastTimestamp := clock pos } (p + 1)) := by
    intro c f p hcp
    simp only [getSnowflake, hmk]
    rw [getId_fresh g c f p (by omega)]
    rw [hcp]
  have hdec := deconstruct_encodeId_sequence g (clock pos) 0 hlo hw0 hw hp0 hp
    (by norm_num)
  refine ⟨rfl, hcall clock fuel pos rfl, ?_, hcall clock' fuel' pos' heq⟩
  exact hdec

/-- C4 witness: two same-millisecond `getSnowflake` invocations with options
`workerId = 5, processId = 10, epoch = 42` and a clock frozen at `1000`
return the identical id, which decodes to sequence `0`. -/
theorem getSnowflake_fresh_collision_witness :
    freshState = freshState
    ∧ getSnowflake none
        (some { workerId := some 5, processId := some 10, epoch := some 42 })
        (fun _ => 1000) 7 0
      = Except.ok (GetIdResult.ok
          (encodeId { workerId := 5, processId := 10, epoch := 42 } 1000 0)
          { sequence := 0, lastTimestamp := 1000 } 1)
    ∧ (deconstruct { workerId := 5, processId := 10, epoch := 42 }
        (encodeId { workerId := 5, processId := 10, epoch := 42 } 1000 0)).sequence = 0
    ∧ getSnowflake none
        (some { workerId := some 5, processId := some 10, epoch := some 42 })
        (fun _ => 1000) 9 0
      = Except.ok (GetIdResult.ok
          (encodeId { workerId := 5, processId := 10, epoch := 42 } 1000 0)
          { sequence := 0, lastTimestamp := 1000 } 1) := by
  have h := getSnowflake_fresh_collision none
    (some { workerId := some 5, processId := some 10, epoch := some 42 })
    (fun _ => 1000) (fun _ => 1000) 7 9 0 0
    { workerId := 5, processId := 10, epoch := 42 } freshState
    (by rfl) (by norm_num) (by norm_num) (by norm_num) rfl
  exact h

/-- Concrete generator for the sequence-exhaustion scenario. -/
def c6Generator : GeneratorIdentity := { workerId := 1, processId := 1, epoch := 0 }

/-- Frozen-then-advancing clock: reads `100` for the first 4097 positions,
then `101`. -/
def c6Clock : Nat → Int := fun i => if i ≤ 4096 then 100 else 101

/-- The 5000 ids of the exhaustion run: 4096 ids in millisecond `100`
(sequences 0 through 4095), then 904 ids in millisecond `101`. -/
def c6Ids : List Int :=
  encodeId c6Generator 100 0
    :: ((List.range 4095).map (fun i => encodeId c6Generator 100 (i + 1))
      ++ encodeId c6Generator 101 0
        :: (List.range 903).map (fun i => encodeId c6Generator 101 (i + 1)))

theorem c6_run : runIds c6Generator c6Clock 10 5000 freshState 0
    = some (c6Ids, { sequence := 903, lastTimestamp := 101 }, 5001) := by
  have h1 : runIds c6Generator c6Clock 10 1 freshState 0
      = some ([encodeId c6Generator 100 0],
          { sequence := 0, lastTimestamp := 100 }, 1) := by decide
  have h2 := runIds_frozen c6Generator c6Clock 10 100 4095 0 1 (by norm_num)
    (fun k hk1 hk2 => by simp only [c6Clock]; rw [if_pos (by omega)])
  have h3 : runIds c6Generator c6Clock 10 1 { sequence := 4095, lastTimestamp := 100 } 4096
      = some ([encodeId c6Generator 101 0],
          { sequence := 0, lastTimestamp := 101 }, 4098) := by decide
  have h4 := runIds_frozen c6Generator c6Clock 10 101 903 0 4098 (by norm_num)
    (fun k hk1 hk2 => by simp only [c6Clock]; rw [if_neg (by omega)])
  norm_num at h2 h4
  have h34 := runIds_append c6Generator c6Clock 10 1 903
    { sequence := 4095, lastTimestamp := 100 } 4096 _ _ _ h3
  rw [h4] at h34
  simp only [Option.map_some'] at h34
  have h234 := runIds_append c6Generator c6Clock 10 4095 (1 + 903)
    { sequence := 0, lastTimestamp := 100 } 1 _ _ _ h2
  rw [h34] at h234
  simp only [Option.map_some'] at h234
  have h1234 := runIds_append c6Generator c6Clock 10 1 (4095 + (1 + 903))
    freshState 0 _ _ _ h1
  rw [h234] at h1234
  simp only [Option.map_some'] at h1234
  rw [show (5000 : Nat) = 1 + (4095 + (1 + 903)) from by norm_num]
  rw [h1234]
  simp [c6Ids]

/-- C6: exactly 4096 ids fit in one millisecond: with the sequence at `4095`
and the clock still on the same millisecond, the next call wraps the
sequence to `0` and busy-waits until the clock advances, returning an id in
the next millisecond bucket with sequence `0`; and 5000 calls on one
instance under the frozen-then-advancing clock yield 5000 pairwise-distinct,
strictly increasing ids spanning two millisecond buckets. -/
theorem sequence_exhaustion_wrap :
    (getId c6Generator c6Clock 10 { sequence := 4095, lastTimestamp := 100 } 4096
        = GetIdResult.ok (encodeId c6Generator 101 0)
            { sequence := 0, lastTimestamp := 101 } 4098
      ∧ (deconstruct c6Generator (encodeId c6Generator 101 0)).sequence = 0
      ∧ (deconstruct c6Generator (encodeId c6Generator 101 0)).timestamp = 101)
    ∧ runIds c6Generator c6Clock 10 5000 freshState 0
        = some (c6Ids, { sequence := 903, lastTimestamp := 101 }, 5001)
    ∧ c6Ids.length = 5000
    ∧ List.Pairwise (· < ·) c6Ids
    ∧ c6Ids.Nodup
    ∧ (∃ x ∈ c6Ids, (deconstruct c6Generator x).timestamp = 100)
    ∧ (∃ y ∈ c6Ids, (deconstruct c6Generator y).timestamp = 101) := by
  have hrun := c6_run
  have hspec := runIds_spec c6Generator c6Clock 10 (by norm_num [c6Generator])
    (by norm_num [c6Generator]) (by norm_num [c6Generator]) (by norm_num [c6Generator])
    (fun i => by simp only [c6Clock]; split <;> norm_num [c6Generator])
    (fun i => by simp only [c6Clock]; split <;> norm_num [c6Generator])
    5000 freshState 0 c6Ids { sequence := 903, lastTimestamp := 101 } 5001
    (by norm_num [freshState]) hrun
  obtain ⟨hpw, _, _, _⟩ := hspec
  refine ⟨by decide, hrun, ?_, hpw, hpw.imp ne_of_lt, ?_, ?_⟩
  · simp [c6Ids]
  · exact ⟨encodeId c6Generator 100 0, by simp [c6Ids], by decide⟩
  · exact ⟨encodeId c6Generator 101 0, by simp [c6Ids], by decide⟩

end JsIds
